import Mathlib

/-!
Verification development for the plugitin call bridge (guest side).

The definitions below are a shallow embedding of the Rust sources
`src/plugitin/src/lib.rs`, `src/plugitin/src/client.rs` and the example
plugin `src/cool_plugin/src/lib.rs`.  The deployment target is 32-bit
WebAssembly, so `usize` casts are modelled as reduction modulo `2 ^ 32`,
pointers are natural numbers intended below `2 ^ 32`, and `u64` packing
arithmetic is plain natural-number bit arithmetic with explicit mods.
Rust panics (`expect`) are modelled as the `Outcome.trap` result;
operations whose Rust semantics are undefined (e.g. `Box::from_raw` on a
pointer that is not a live allocation) are modelled as `Outcome.ub`.
-/

namespace Plugitin

/-- Result of running one guest entry point: normal completion, a panic
(`expect` failure, which traps the WASM instance), or Rust undefined
behaviour. -/
inductive Outcome (α : Type u) where
  | ok : α → Outcome α
  | trap : Outcome α
  | ub : Outcome α
deriving DecidableEq

/-- Embeds `pack_buffer_desc` from `src/plugitin/src/lib.rs`:
`(ptr as u64) | ((len as u64) << 32)`.  Arguments are `u32` values,
i.e. naturals below `2 ^ 32`. -/
def pack_buffer_desc (ptr len : Nat) : Nat :=
  ptr ||| (len <<< 32)

/-- Embeds `unpack_buffer_desc` from `src/plugitin/src/lib.rs`:
`let ptr = packed as u32; let len = (packed >> 32) as u32`.  The `as u32`
casts are reductions modulo `2 ^ 32`. -/
def unpack_buffer_desc (packed : Nat) : Nat × Nat :=
  (packed % 2 ^ 32, (packed >>> 32) % 2 ^ 32)

/-- A guest-owned growable message buffer: a `Box<[u8]>` in the source,
modelled as its address in linear memory together with its byte contents
(the capacity is `data.length`). -/
structure Buffer where
  addr : Nat
  data : List Nat
deriving DecidableEq

/-- The inline growth step appearing (verbatim twice) in
`src/plugitin/src/client.rs` lines 126-130 (`plugitin_client_call_impl`) and
lines 216-220 (`Host::call`):

`if required_len > buffer.len() { let new_buffer = vec![0u8; required_len]
.into_boxed_slice(); let _ = std::mem::replace(&mut buffer, new_buffer); }`

A fresh allocation receives a new address `fresh`; otherwise the buffer is
untouched. -/
def ensure_capacity (buf : Buffer) (required_len : Nat) (fresh : Nat) : Buffer :=
  if required_len > buf.data.length then
    { addr := fresh, data := List.replicate required_len 0 }
  else
    buf

/-- Reads `len` bytes starting at address `ptr` from a linear memory
(`std::slice::from_raw_parts(ptr as *const u8, len as usize)`). -/
def readBytes (mem : Nat → Nat) (ptr len : Nat) : List Nat :=
  (List.range len).map fun i => mem (ptr + i)

/-- The static data of one plugin type `P : Plugin`: its state type, the
four associated payload types, the constructor `P::new`, the serialization
capability for each payload direction (bincode's `serialize_into`,
`serialized_size`, `deserialize_from`, where `serialized_size` is documented
to equal the length of the encoding), and the user call logic
`P::call`, expressed as a script that may issue finitely many outbound
host calls before producing its result. -/
inductive CallScript (HIn HOut R : Type) where
  | done : R → CallScript HIn HOut R
  | hostCall : HIn → (HOut → CallScript HIn HOut R) → CallScript HIn HOut R

structure PluginSpec where
  State : Type
  CIn : Type
  COut : Type
  HIn : Type
  HOut : Type
  new : State
  decodeCIn : List Nat → Option CIn
  encodeCOut : COut → List Nat
  sizeCOut : COut → Nat
  sizeCOut_eq : ∀ v, sizeCOut v = (encodeCOut v).length
  encodeHIn : HIn → List Nat
  sizeHIn : HIn → Nat
  sizeHIn_eq : ∀ v, sizeHIn v = (encodeHIn v).length
  decodeHOut : List Nat → Option HOut
  call : State → CIn → CallScript HIn HOut (COut × State)

/-- Embeds `struct PluginInfo<T>` from `src/plugitin/src/client.rs`: the user
plugin value plus the two guest-owned buffers. -/
structure PluginInfo (csp : PluginSpec) where
  plugin : csp.State
  client_call_output_buffer : Buffer
  host_call_input_buffer : Buffer

/-- The guest heap of live instance records, keyed by the record's address
(the opaque handle the host receives). -/
def Heap (csp : PluginSpec) : Type :=
  Nat → Option (PluginInfo csp)

def emptyHeap (csp : PluginSpec) : Heap csp :=
  fun _ => none

def updateHeap (csp : PluginSpec) (heap : Heap csp) (h : Nat)
    (r : PluginInfo csp) : Heap csp :=
  fun k => if k = h then some r else heap k

def eraseHeap (csp : PluginSpec) (heap : Heap csp) (h : Nat) : Heap csp :=
  fun k => if k = h then none else heap k

/-- The host side, seen from the guest: the single imported function
`plugitin_host_call` and the memory the returned descriptor addresses. -/
structure HostOracle where
  plugitin_host_call : Nat → Nat → Nat
  mem : Nat → Nat

/-- Embeds `fn info_ref` from `src/plugitin/src/client.rs`:
`unsafe { (info as *mut PluginInfo<P>).as_mut() }.expect("Host provided a
plugin pointer that is null")`.  `as_mut` yields `None` exactly when the
pointer is null, so handle `0` panics (trap); converting any other
non-live pointer to a reference is Rust undefined behaviour. -/
def info_ref (csp : PluginSpec) (heap : Heap csp) (info : Nat) :
    Outcome (PluginInfo csp) :=
  if info = 0 then .trap
  else
    match heap info with
    | some r => .ok r
    | none => .ub

/-- Embeds `plugitin_init_impl` from `src/plugitin/src/client.rs`: boxes a fresh
record holding `P::new()` and two zero-capacity buffers
(`vec![0u8; 0].into_boxed_slice()`) and returns its address as the
handle.  `fresh` is the address the allocator hands out; a zero-length
boxed slice has a dangling aligned pointer, modelled as address 1. -/
def plugitin_init_impl (csp : PluginSpec) (fresh : Nat) (heap : Heap csp) :
    Nat × Heap csp :=
  (fresh,
    updateHeap csp heap fresh
      { plugin := csp.new
        client_call_output_buffer := ⟨1, List.replicate 0 0⟩
        host_call_input_buffer := ⟨1, List.replicate 0 0⟩ })

/-- Embeds `plugitin_destroy_impl` from `src/plugitin/src/client.rs`:
`unsafe { Box::from_raw(info as *mut PluginInfo<P>); }` with no check of
any kind.  On a live handle the box is dropped, releasing the record; on
any handle that is not a live allocation (including null) `Box::from_raw`
plus the drop is Rust undefined behaviour, not a trap. -/
def plugitin_destroy_impl (csp : PluginSpec) (heap : Heap csp) (info : Nat) :
    Outcome (Heap csp) :=
  match heap info with
  | some _ => .ok (eraseHeap csp heap info)
  | none => .ub

/-- Models `std::alloc::Layout::from_size_align(size, align)`: it succeeds iff
`align` is a nonzero power of two and `size` rounded up to `align` does
not overflow `isize` (on wasm32, `isize::MAX = 2 ^ 31 - 1`). -/
def layout_from_size_align_ok (size align : Nat) : Bool :=
  align != 0 && (align &&& (align - 1)) == 0 &&
    decide (size + (align - 1) ≤ 2 ^ 31 - 1)

/-- Embeds `plugitin_alloc_impl` from `src/plugitin/src/client.rs`: dereferences
the handle via `info_ref`, builds the layout
(`.expect("Invalid layout parameters")` traps on invalid layouts), and
returns `plugin.alloc(layout) as u32` — the default `Plugin::alloc`
passes through to `std::alloc::alloc_zeroed`, modelled by the allocator
oracle `allocFn`.  The heap of records is untouched. -/
def plugitin_alloc_impl (csp : PluginSpec) (allocFn : Nat → Nat → Nat)
    (heap : Heap csp) (info size align : Nat) : Outcome (Nat × Heap csp) :=
  match info_ref csp heap info with
  | .trap => .trap
  | .ub => .ub
  | .ok _ =>
    if layout_from_size_align_ok size align then
      .ok (allocFn size align % 2 ^ 32, heap)
    else
      .trap

/-- Embeds `plugitin_dealloc_impl` from `src/plugitin/src/client.rs`: dereferences
the handle via `info_ref`, rebuilds the layout (trapping on invalid
layout parameters), and passes the pointer to the default
`Plugin::dealloc` (`std::alloc::dealloc`), which releases allocator
memory outside the record heap; the record heap is untouched. -/
def plugitin_dealloc_impl (csp : PluginSpec) (heap : Heap csp)
    (info ptr size align : Nat) : Outcome (Heap csp) :=
  match info_ref csp heap info with
  | .trap => .trap
  | .ub => .ub
  | .ok _ =>
    if layout_from_size_align_ok size align then
      .ok heap
    else
      .trap

namespace Host

/-- Embeds `Host::call` from `src/plugitin/src/client.rs` lines 211-239.  In
source order: `serialized_size(&input) as usize` (on wasm32 the cast
reduces mod `2 ^ 32`), the inline growth step, `serialize_into` over
`&mut buffer` (which overwrites the first `enc.length` bytes and fails —
panicking via `expect` — when the slice is shorter than the encoding),
`pack_buffer_desc(buffer.as_mut_ptr() as u32, input_len as u32)`, the
imported `plugitin_host_call`, `unpack_buffer_desc` of its result,
`from_raw_parts` over the addressed memory, and `deserialize_from`
(`expect` traps on decode failure). -/
def call (csp : PluginSpec) (oracle : HostOracle) (fresh : Nat) (info : Nat)
    (input : csp.HIn) (buf : Buffer) : Outcome (csp.HOut × Buffer) :=
  let input_len := csp.sizeHIn input % 2 ^ 32
  let grown := ensure_capacity buf input_len fresh
  let enc := csp.encodeHIn input
  if enc.length ≤ grown.data.length then
    let written : Buffer := ⟨grown.addr, enc ++ grown.data.drop enc.length⟩
    let input_packed := pack_buffer_desc (written.addr % 2 ^ 32) (input_len % 2 ^ 32)
    let output_packed := oracle.plugitin_host_call info input_packed
    let opair := unpack_buffer_desc output_packed
    match csp.decodeHOut (readBytes oracle.mem opair.1 opair.2) with
    | some out => .ok (out, written)
    | none => .trap
  else
    .trap

end Host

/-- Runs the user call logic: each `hostCall` node performs one
`Host::call` round trip through the borrowed outbound-input buffer
(`fresh k`, `fresh (k+1)`, ... are the addresses handed out for any
reallocations); `done` yields the user's response value. -/
def runScript (csp : PluginSpec) (oracle : HostOracle) (fresh : Nat → Nat)
    (info : Nat) :
    Nat → CallScript csp.HIn csp.HOut (csp.COut × csp.State) → Buffer →
      Outcome ((csp.COut × csp.State) × Buffer)
  | _, .done r, buf => .ok (r, buf)
  | k, .hostCall inp cont, buf =>
    match Host.call csp oracle (fresh k) info inp buf with
    | .ok (out, buf') => runScript csp oracle fresh info (k + 1) (cont out) buf'
    | .trap => .trap
    | .ub => .ub

/-- Embeds `plugitin_client_call_impl` from `src/plugitin/src/client.rs` lines
107-138.  In source order: `info_ref`, `unpack_buffer_desc`,
`from_raw_parts` over guest memory, `deserialize_from` of the request
(`expect` traps on decode failure), `Host::new` plus
`info_ref.plugin.call(&call_input, &mut host)` (the user logic, run as a
script over the borrowed `host_call_input_buffer`),
`serialized_size(&call_output)`, the inline growth step on
`client_call_output_buffer` with requirement `output_len as usize`
(mod `2 ^ 32` on wasm32), `serialize_into` (trap when the encoding does
not fit), and `pack_buffer_desc(buffer.as_mut_ptr() as u32,
output_len as u32)`.  `freshO` is the address handed out if the output
buffer reallocates. -/
def plugitin_client_call_impl (csp : PluginSpec) (mem : Nat → Nat)
    (oracle : HostOracle) (fresh : Nat → Nat) (freshO : Nat)
    (heap : Heap csp) (info : Nat) (input_packed : Nat) :
    Outcome (Nat × Heap csp) :=
  match info_ref csp heap info with
  | .trap => .trap
  | .ub => .ub
  | .ok rec =>
    let ipair := unpack_buffer_desc input_packed
    let input_slice := readBytes mem ipair.1 ipair.2
    match csp.decodeCIn input_slice with
    | none => .trap
    | some call_input =>
      match runScript csp oracle fresh info 0 (csp.call rec.plugin call_input)
          rec.host_call_input_buffer with
      | .trap => .trap
      | .ub => .ub
      | .ok (res, hbuf) =>
        let call_output := res.1
        let output_len := csp.sizeCOut call_output
        let grown := ensure_capacity rec.client_call_output_buffer
          (output_len % 2 ^ 32) freshO
        let enc := csp.encodeCOut call_output
        if enc.length ≤ grown.data.length then
          let written : Buffer := ⟨grown.addr, enc ++ grown.data.drop enc.length⟩
          let output_ptr := written.addr % 2 ^ 32
          .ok (pack_buffer_desc output_ptr (output_len % 2 ^ 32),
            updateHeap csp heap info
              { plugin := res.2
                client_call_output_buffer := written
                host_call_input_buffer := hbuf })
        else
          .trap

/-- The request type of the example plugin `src/cool_plugin/src/lib.rs`. -/
inductive ClientInput where
  | Foo
deriving DecidableEq

/-- The response type of the example plugin. -/
inductive ClientOutput where
  | Bar
deriving DecidableEq

/-- The outbound-request type of the example plugin. -/
inductive HostInput where
  | Baz
deriving DecidableEq

/-- The outbound-response type of the example plugin. -/
inductive HostOutput where
  | Qux
deriving DecidableEq

/-- Bincode (fixed-width, little-endian) encodes a fieldless enum variant
as its `u32` index.  This decoder accepts a leading 4-byte zero tag
(variant index 0) and rejects anything else; trailing bytes are ignored,
as `deserialize_from` reads from a cursor. -/
def decodeTagZero (bytes : List Nat) : Bool :=
  match bytes with
  | b0 :: b1 :: b2 :: b3 :: _ =>
    b0 + 256 * (b1 + 256 * (b2 + 256 * b3)) == 0
  | _ => false

/-- The example plugin `CoolPlugin` from `src/cool_plugin/src/lib.rs`,
with bincode's fixed-width little-endian format for its four
single-variant payload enums: each serializes to the 4-byte zero tag.
Its `call` handles `Foo` by issuing one outbound `Baz` call, matching the
`Qux` reply, and answering `Bar`. -/
def CoolPlugin : PluginSpec where
  State := Unit
  CIn := ClientInput
  COut := ClientOutput
  HIn := HostInput
  HOut := HostOutput
  new := ()
  decodeCIn bytes := if decodeTagZero bytes then some .Foo else none
  encodeCOut _ := [0, 0, 0, 0]
  sizeCOut _ := 4
  sizeCOut_eq := fun _ => rfl
  encodeHIn _ := [0, 0, 0, 0]
  sizeHIn _ := 4
  sizeHIn_eq := fun _ => rfl
  decodeHOut bytes := if decodeTagZero bytes then some .Qux else none
  call st _ := .hostCall .Baz fun _ => .done (.Bar, st)

/-- The record `plugitin_init_impl::<CoolPlugin>` builds. -/
def coolRec : PluginInfo CoolPlugin :=
  { plugin := ()
    client_call_output_buffer := ⟨1, List.replicate 0 0⟩
    host_call_input_buffer := ⟨1, List.replicate 0 0⟩ }

/-- A guest heap holding one live `CoolPlugin` instance at handle 12. -/
def coolHeap : Heap CoolPlugin :=
  (plugitin_init_impl CoolPlugin 12 (emptyHeap CoolPlugin)).2

/-- Guest linear memory holding an encoded `Foo` request (4-byte zero tag)
at addresses 100..103 and garbage elsewhere. -/
def memFoo : Nat → Nat :=
  fun a => if 100 ≤ a ∧ a < 104 then 0 else 9

/-- A host that answers every outbound call with a descriptor over
addresses 200..203 of its memory, where an encoded `Qux` (4-byte zero
tag) lies; garbage elsewhere. -/
def oracleQux : HostOracle :=
  { plugitin_host_call := fun _ _ => pack_buffer_desc 200 4
    mem := fun a => if 200 ≤ a ∧ a < 204 then 0 else 9 }

/-- Allocator address stream for outbound-input buffer reallocations. -/
def freshHost : Nat → Nat :=
  fun k => 300 + k

/-- A plugin whose response reports a serialized size of `2 ^ 32` bytes
(one `u8` beyond the `u32` range), used to probe the `as u32` / `as usize`
truncations on the output path.  All other payloads are trivial. -/
def BigPlugin : PluginSpec where
  State := Unit
  CIn := Unit
  COut := Unit
  HIn := Unit
  HOut := Unit
  new := ()
  decodeCIn _ := some ()
  encodeCOut _ := List.replicate (2 ^ 32) 0
  sizeCOut _ := 2 ^ 32
  sizeCOut_eq := fun _ => (List.length_replicate _ _).symm
  encodeHIn _ := List.replicate (2 ^ 32) 0
  sizeHIn _ := 2 ^ 32
  sizeHIn_eq := fun _ => (List.length_replicate _ _).symm
  decodeHOut _ := some ()
  call st _ := .done ((), st)

/-- A guest heap holding one live `BigPlugin` instance at handle 3. -/
def bigHeap : Heap BigPlugin :=
  (plugitin_init_impl BigPlugin 3 (emptyHeap BigPlugin)).2

/-- A host oracle that never needs to answer (the big plugin makes no
outbound calls). -/
def oracleNone : HostOracle :=
  { plugitin_host_call := fun _ _ => 0
    mem := fun _ => 0 }

theorem pack_mod_two_pow (ptr len : Nat) (h : ptr < 2 ^ 32) :
    pack_buffer_desc ptr len % 2 ^ 32 = ptr := by
  apply Nat.eq_of_testBit_eq
  intro i
  simp only [pack_buffer_desc, Nat.testBit_mod_two_pow, Nat.testBit_lor,
    Nat.testBit_shiftLeft]
  by_cases hi : i < 32
  · simp [hi, Nat.not_le_of_lt hi]
  · have h32 : 32 ≤ i := Nat.le_of_not_lt hi
    have : ptr < 2 ^ i := Nat.lt_of_lt_of_le h (Nat.pow_le_pow_right (by omega) h32)
    simp [hi, Nat.testBit_lt_two_pow this]

theorem pack_shiftRight (ptr len : Nat) (h : ptr < 2 ^ 32) :
    pack_buffer_desc ptr len >>> 32 = len := by
  apply Nat.eq_of_testBit_eq
  intro i
  simp only [pack_buffer_desc, Nat.testBit_shiftRight, Nat.testBit_lor,
    Nat.testBit_shiftLeft]
  have : ptr < 2 ^ (32 + i) :=
    Nat.lt_of_lt_of_le h (Nat.pow_le_pow_right (by omega) (by omega))
  simp [Nat.testBit_lt_two_pow this]

/-- C3: the descriptor codec round-trips: for all 32-bit `(offset, length)`
pairs, `unpack_buffer_desc (pack_buffer_desc offset length) =
(offset, length)`.  Both functions are total Lean functions, hence have no
failure mode. -/
theorem unpack_pack_roundtrip (ptr len : Nat) (hptr : ptr < 2 ^ 32)
    (hlen : len < 2 ^ 32) :
    unpack_buffer_desc (pack_buffer_desc ptr len) = (ptr, len) := by
  simp only [unpack_buffer_desc, pack_mod_two_pow ptr len hptr,
    pack_shiftRight ptr len hptr, Nat.mod_eq_of_lt hlen]

/-- Witness for C3 at a concrete input. -/
theorem unpack_pack_roundtrip_witness :
    unpack_buffer_desc (pack_buffer_desc 100 7) = (100, 7) :=
  unpack_pack_roundtrip 100 7 (by decide) (by decide)

/-- C4: when the required length is at most the current capacity, the
ensure-capacity step of a call (the single definition shared by the
client-call output path and the host-call input path) leaves the buffer
entirely unchanged: same address (no reallocation) and same contents. -/
theorem ensure_capacity_noop (buf : Buffer) (n fresh : Nat)
    (h : n ≤ buf.data.length) :
    ensure_capacity buf n fresh = buf := by
  simp only [ensure_capacity, gt_iff_lt, Nat.not_lt_of_le h, if_false]

/-- Witness for C4 at a concrete input. -/
theorem ensure_capacity_noop_witness :
    ensure_capacity ⟨5, [1, 2, 3]⟩ 2 99 = ⟨5, [1, 2, 3]⟩ :=
  ensure_capacity_noop ⟨5, [1, 2, 3]⟩ 2 99 (by decide)

theorem ensure_capacity_req_le (buf : Buffer) (n a : Nat) :
    n ≤ (ensure_capacity buf n a).data.length := by
  unfold ensure_capacity
  split
  · simp
  · omega

theorem ensure_capacity_old_le (buf : Buffer) (n a : Nat) :
    buf.data.length ≤ (ensure_capacity buf n a).data.length := by
  unfold ensure_capacity
  split
  · next h => simp only [List.length_replicate]; omega
  · exact Nat.le_refl _

/-- C9: the entry points that dereference the handle through `info_ref`
(allocate, deallocate and client_call) trap on the null handle 0 via the
explicit defensive check (`expect("Host provided a plugin pointer that is
null")`) before any dereference, whatever the heap contents. -/
theorem null_handle_traps (csp : PluginSpec) (allocFn : Nat → Nat → Nat)
    (mem : Nat → Nat) (oracle : HostOracle) (fresh : Nat → Nat)
    (freshO : Nat) (heap : Heap csp) (size align ptr packed : Nat) :
    plugitin_alloc_impl csp allocFn heap 0 size align = .trap ∧
    plugitin_dealloc_impl csp heap 0 ptr size align = .trap ∧
    plugitin_client_call_impl csp mem oracle fresh freshO heap 0 packed = .trap := by
  refine ⟨?_, ?_, ?_⟩ <;>
    simp [plugitin_alloc_impl, plugitin_dealloc_impl,
      plugitin_client_call_impl, info_ref]

/-- C8 counterexample: destroying the non-live handle 5 on an empty heap
is undefined behaviour (`Box::from_raw` with no liveness check), not the
trap the claim asserts. -/
theorem destroy_nonlive_is_ub_not_trap :
    plugitin_destroy_impl CoolPlugin (emptyHeap CoolPlugin) 5 = .ub ∧
    (Outcome.ub : Outcome (Heap CoolPlugin)) ≠ Outcome.trap :=
  ⟨rfl, fun h => Outcome.noConfusion h⟩

/-- C8 amended: `plugitin_destroy_impl` performs no liveness (or null)
check at all: on a live handle it unconditionally reclaims the record,
and on any non-live handle the unchecked `Box::from_raw` is undefined
behaviour rather than a trap. -/
theorem destroy_no_liveness_check (csp : PluginSpec) (heap : Heap csp)
    (info : Nat) :
    (heap info = none → plugitin_destroy_impl csp heap info = .ub) ∧
    (∀ r, heap info = some r →
      plugitin_destroy_impl csp heap info = .ok (eraseHeap csp heap info)) := by
  constructor
  · intro h
    simp [plugitin_destroy_impl, h]
  · intro r h
    simp [plugitin_destroy_impl, h]

/-- Witness for the amended C8 at a concrete live handle. -/
theorem destroy_no_liveness_check_witness :
    plugitin_destroy_impl CoolPlugin coolHeap 12 =
      .ok (eraseHeap CoolPlugin coolHeap 12) :=
  (destroy_no_liveness_check CoolPlugin coolHeap 12).2 coolRec rfl

theorem client_call_decode_none (csp : PluginSpec) (mem : Nat → Nat)
    (oracle : HostOracle) (fresh : Nat → Nat) (freshO : Nat)
    (heap : Heap csp) (info packed : Nat) (rec : PluginInfo csp)
    (h0 : info ≠ 0) (hrec : heap info = some rec)
    (hdec : csp.decodeCIn (readBytes mem (unpack_buffer_desc packed).1
      (unpack_buffer_desc packed).2) = none) :
    plugitin_client_call_impl csp mem oracle fresh freshO heap info packed =
      .trap := by
  simp only [plugitin_client_call_impl, info_ref, h0, if_false, hrec, hdec]

theorem client_call_spec (csp : PluginSpec) (mem : Nat → Nat)
    (oracle : HostOracle) (fresh : Nat → Nat) (freshO : Nat)
    (heap : Heap csp) (info packed : Nat) (rec : PluginInfo csp)
    (cin : csp.CIn) (res : csp.COut × csp.State) (hbuf : Buffer)
    (h0 : info ≠ 0) (hrec : heap info = some rec)
    (hdec : csp.decodeCIn (readBytes mem (unpack_buffer_desc packed).1
      (unpack_buffer_desc packed).2) = some cin)
    (hrun : runScript csp oracle fresh info 0 (csp.call rec.plugin cin)
      rec.host_call_input_buffer = .ok (res, hbuf))
    (hsz : csp.sizeCOut res.1 < 2 ^ 32) :
    plugitin_client_call_impl csp mem oracle fresh freshO heap info packed =
      .ok (pack_buffer_desc
          ((ensure_capacity rec.client_call_output_buffer
            (csp.sizeCOut res.1) freshO).addr % 2 ^ 32)
          (csp.sizeCOut res.1),
        updateHeap csp heap info
          { plugin := res.2
            client_call_output_buffer :=
              ⟨(ensure_capacity rec.client_call_output_buffer
                  (csp.sizeCOut res.1) freshO).addr,
                csp.encodeCOut res.1 ++
                  (ensure_capacity rec.client_call_output_buffer
                    (csp.sizeCOut res.1) freshO).data.drop
                    (csp.encodeCOut res.1).length⟩
            host_call_input_buffer := hbuf }) := by
  have hmod : csp.sizeCOut res.1 % 2 ^ 32 = csp.sizeCOut res.1 :=
    Nat.mod_eq_of_lt hsz
  have hfit : (csp.encodeCOut res.1).length ≤
      (ensure_capacity rec.client_call_output_buffer
        (csp.sizeCOut res.1) freshO).data.length := by
    rw [← csp.sizeCOut_eq]
    exact ensure_capacity_req_le _ _ _
  simp only [plugitin_client_call_impl, info_ref, h0, if_false, hrec, hdec,
    hrun, hmod, hfit, if_true]

/-- C6: if request decoding fails on the unpacked view,
`plugitin_client_call_impl` traps (the `expect` panic): there is no
partial-success or error-as-value result. -/
theorem client_call_decode_failure_traps (csp : PluginSpec)
    (mem : Nat → Nat) (oracle : HostOracle) (fresh : Nat → Nat)
    (freshO : Nat) (heap : Heap csp) (info packed : Nat)
    (rec : PluginInfo csp) (h0 : info ≠ 0) (hrec : heap info = some rec)
    (hdec : csp.decodeCIn (readBytes mem (unpack_buffer_desc packed).1
      (unpack_buffer_desc packed).2) = none) :
    plugitin_client_call_impl csp mem oracle fresh freshO heap info packed =
      .trap :=
  client_call_decode_none csp mem oracle fresh freshO heap info packed rec
    h0 hrec hdec

/-- Witness for C6: feeding `client_call` a descriptor over garbage bytes
(addresses 500..503 hold 9s, not a valid `ClientInput` tag) traps. -/
theorem client_call_decode_failure_traps_witness :
    plugitin_client_call_impl CoolPlugin memFoo oracleQux freshHost 400
      coolHeap 12 (pack_buffer_desc 500 4) = .trap :=
  client_call_decode_failure_traps CoolPlugin memFoo oracleQux freshHost 400
    coolHeap 12 (pack_buffer_desc 500 4) coolRec (by decide) rfl rfl

/-- C1: on an inbound dispatch whose request decodes (`hdec`), whose user
logic completes (`hrun`) and whose response encoding succeeds (immediate
here: the output buffer is first grown to at least the encoded size, and
on the 32-bit target the size fits `usize`, `hsz`), `client_call` returns
`pack(address of the inbound-call-output buffer, encoded length of the
response)`, and the first encoded-length bytes of that buffer are the
serialization of the response value produced by the user logic. -/
theorem client_call_ok (csp : PluginSpec) (mem : Nat → Nat)
    (oracle : HostOracle) (fresh : Nat → Nat) (freshO : Nat)
    (heap : Heap csp) (info packed : Nat) (rec : PluginInfo csp)
    (cin : csp.CIn) (res : csp.COut × csp.State) (hbuf : Buffer)
    (h0 : info ≠ 0) (hrec : heap info = some rec)
    (hdec : csp.decodeCIn (readBytes mem (unpack_buffer_desc packed).1
      (unpack_buffer_desc packed).2) = some cin)
    (hrun : runScript csp oracle fresh info 0 (csp.call rec.plugin cin)
      rec.host_call_input_buffer = .ok (res, hbuf))
    (hsz : csp.sizeCOut res.1 < 2 ^ 32)
    (haddr : (ensure_capacity rec.client_call_output_buffer
      (csp.sizeCOut res.1) freshO).addr < 2 ^ 32) :
    plugitin_client_call_impl csp mem oracle fresh freshO heap info packed =
      .ok (pack_buffer_desc
          (ensure_capacity rec.client_call_output_buffer
            (csp.sizeCOut res.1) freshO).addr
          (csp.sizeCOut res.1),
        updateHeap csp heap info
          { plugin := res.2
            client_call_output_buffer :=
              ⟨(ensure_capacity rec.client_call_output_buffer
                  (csp.sizeCOut res.1) freshO).addr,
                csp.encodeCOut res.1 ++
                  (ensure_capacity rec.client_call_output_buffer
                    (csp.sizeCOut res.1) freshO).data.drop
                    (csp.encodeCOut res.1).length⟩
            host_call_input_buffer := hbuf }) ∧
    (csp.encodeCOut res.1 ++
        (ensure_capacity rec.client_call_output_buffer
          (csp.sizeCOut res.1) freshO).data.drop
          (csp.encodeCOut res.1).length).take (csp.encodeCOut res.1).length =
      csp.encodeCOut res.1 ∧
    csp.sizeCOut res.1 ≤
      (csp.encodeCOut res.1 ++
        (ensure_capacity rec.client_call_output_buffer
          (csp.sizeCOut res.1) freshO).data.drop
          (csp.encodeCOut res.1).length).length := by
  have hfit : (csp.encodeCOut res.1).length ≤
      (ensure_capacity rec.client_call_output_buffer
        (csp.sizeCOut res.1) freshO).data.length := by
    rw [← csp.sizeCOut_eq]
    exact ensure_capacity_req_le _ _ _
  refine ⟨?_, ?_, ?_⟩
  · rw [client_call_spec csp mem oracle fresh freshO heap info packed rec cin
      res hbuf h0 hrec hdec hrun hsz, Nat.mod_eq_of_lt haddr]
  · exact List.take_left _ _
  · rw [List.length_append, List.length_drop, csp.sizeCOut_eq]
    omega

/-- Witness for C1: the end-to-end `Foo`/`Bar` scenario of the example
plugin, on a live instance at handle 12 with the request at address 100. -/
theorem client_call_ok_witness :
    plugitin_client_call_impl CoolPlugin memFoo oracleQux freshHost 400
      coolHeap 12 (pack_buffer_desc 100 4) =
      .ok (pack_buffer_desc
          (ensure_capacity coolRec.client_call_output_buffer
            (CoolPlugin.sizeCOut (ClientOutput.Bar, ()).1) 400).addr
          (CoolPlugin.sizeCOut (ClientOutput.Bar, ()).1),
        updateHeap CoolPlugin coolHeap 12
          { plugin := (ClientOutput.Bar, ()).2
            client_call_output_buffer :=
              ⟨(ensure_capacity coolRec.client_call_output_buffer
                  (CoolPlugin.sizeCOut (ClientOutput.Bar, ()).1) 400).addr,
                CoolPlugin.encodeCOut (ClientOutput.Bar, ()).1 ++
                  (ensure_capacity coolRec.client_call_output_buffer
                    (CoolPlugin.sizeCOut (ClientOutput.Bar, ()).1) 400).data.drop
                    (CoolPlugin.encodeCOut (ClientOutput.Bar, ()).1).length⟩
            host_call_input_buffer := ⟨300, [0, 0, 0, 0]⟩ }) ∧
    (CoolPlugin.encodeCOut (ClientOutput.Bar, ()).1 ++
        (ensure_capacity coolRec.client_call_output_buffer
          (CoolPlugin.sizeCOut (ClientOutput.Bar, ()).1) 400).data.drop
          (CoolPlugin.encodeCOut (ClientOutput.Bar, ()).1).length).take
        (CoolPlugin.encodeCOut (ClientOutput.Bar, ()).1).length =
      CoolPlugin.encodeCOut (ClientOutput.Bar, ()).1 ∧
    CoolPlugin.sizeCOut (ClientOutput.Bar, ()).1 ≤
      (CoolPlugin.encodeCOut (ClientOutput.Bar, ()).1 ++
        (ensure_capacity coolRec.client_call_output_buffer
          (CoolPlugin.sizeCOut (ClientOutput.Bar, ()).1) 400).data.drop
          (CoolPlugin.encodeCOut (ClientOutput.Bar, ()).1).length).length :=
  client_call_ok CoolPlugin memFoo oracleQux freshHost 400 coolHeap 12
    (pack_buffer_desc 100 4) coolRec ClientInput.Foo (ClientOutput.Bar, ())
    ⟨300, [0, 0, 0, 0]⟩ (by decide) rfl rfl rfl (by decide) (by decide)

/-- C7: when request decoding fails, the call aborts before any mutation
of the instance (the trap is raised while only reads have occurred), so a
subsequent valid call on the same handle — against the exact same heap,
plugin value and buffers — still succeeds. -/
theorem decode_failure_preserves_instance (csp : PluginSpec)
    (mem : Nat → Nat) (oracle : HostOracle) (fresh : Nat → Nat)
    (freshO : Nat) (heap : Heap csp) (info bad good : Nat)
    (rec : PluginInfo csp) (cin : csp.CIn) (res : csp.COut × csp.State)
    (hbuf : Buffer) (h0 : info ≠ 0) (hrec : heap info = some rec)
    (hbad : csp.decodeCIn (readBytes mem (unpack_buffer_desc bad).1
      (unpack_buffer_desc bad).2) = none)
    (hgood : csp.decodeCIn (readBytes mem (unpack_buffer_desc good).1
      (unpack_buffer_desc good).2) = some cin)
    (hrun : runScript csp oracle fresh info 0 (csp.call rec.plugin cin)
      rec.host_call_input_buffer = .ok (res, hbuf))
    (hsz : csp.sizeCOut res.1 < 2 ^ 32) :
    plugitin_client_call_impl csp mem oracle fresh freshO heap info bad =
      .trap ∧
    plugitin_client_call_impl csp mem oracle fresh freshO heap info good =
      .ok (pack_buffer_desc
          ((ensure_capacity rec.client_call_output_buffer
            (csp.sizeCOut res.1) freshO).addr % 2 ^ 32)
          (csp.sizeCOut res.1),
        updateHeap csp heap info
          { plugin := res.2
            client_call_output_buffer :=
              ⟨(ensure_capacity rec.client_call_output_buffer
                  (csp.sizeCOut res.1) freshO).addr,
                csp.encodeCOut res.1 ++
                  (ensure_capacity rec.client_call_output_buffer
                    (csp.sizeCOut res.1) freshO).data.drop
                    (csp.encodeCOut res.1).length⟩
            host_call_input_buffer := hbuf }) :=
  ⟨client_call_decode_none csp mem oracle fresh freshO heap info bad rec
      h0 hrec hbad,
    client_call_spec csp mem oracle fresh freshO heap info good rec cin res
      hbuf h0 hrec hgood hrun hsz⟩

/-- Witness for C7: a garbage descriptor traps, then the valid `Foo`
request on the same untouched heap succeeds. -/
theorem decode_failure_preserves_instance_witness :
    plugitin_client_call_impl CoolPlugin memFoo oracleQux freshHost 400
      coolHeap 12 (pack_buffer_desc 600 4) = .trap ∧
    plugitin_client_call_impl CoolPlugin memFoo oracleQux freshHost 400
      coolHeap 12 (pack_buffer_desc 100 4) =
      .ok (pack_buffer_desc
          ((ensure_capacity coolRec.client_call_output_buffer
            (CoolPlugin.sizeCOut (ClientOutput.Bar, ()).1) 400).addr % 2 ^ 32)
          (CoolPlugin.sizeCOut (ClientOutput.Bar, ()).1),
        updateHeap CoolPlugin coolHeap 12
          { plugin := (ClientOutput.Bar, ()).2
            client_call_output_buffer :=
              ⟨(ensure_capacity coolRec.client_call_output_buffer
                  (CoolPlugin.sizeCOut (ClientOutput.Bar, ()).1) 400).addr,
                CoolPlugin.encodeCOut (ClientOutput.Bar, ()).1 ++
                  (ensure_capacity coolRec.client_call_output_buffer
                    (CoolPlugin.sizeCOut (ClientOutput.Bar, ()).1) 400).data.drop
                    (CoolPlugin.encodeCOut (ClientOutput.Bar, ()).1).length⟩
            host_call_input_buffer := ⟨300, [0, 0, 0, 0]⟩ }) :=
  decode_failure_preserves_instance CoolPlugin memFoo oracleQux freshHost 400
    coolHeap 12 (pack_buffer_desc 600 4) (pack_buffer_desc 100 4) coolRec
    ClientInput.Foo (ClientOutput.Bar, ()) ⟨300, [0, 0, 0, 0]⟩ (by decide)
    rfl rfl rfl rfl (by decide)

theorem host_call_spec (csp : PluginSpec) (oracle : HostOracle)
    (fresh info : Nat) (input : csp.HIn) (buf : Buffer) (out : csp.HOut)
    (hsz : csp.sizeHIn input < 2 ^ 32)
    (hdec : csp.decodeHOut (readBytes oracle.mem
      (unpack_buffer_desc (oracle.plugitin_host_call info
        (pack_buffer_desc
          ((ensure_capacity buf (csp.sizeHIn input) fresh).addr % 2 ^ 32)
          (csp.sizeHIn input)))).1
      (unpack_buffer_desc (oracle.plugitin_host_call info
        (pack_buffer_desc
          ((ensure_capacity buf (csp.sizeHIn input) fresh).addr % 2 ^ 32)
          (csp.sizeHIn input)))).2) = some out) :
    Host.call csp oracle fresh info input buf =
      .ok (out, ⟨(ensure_capacity buf (csp.sizeHIn input) fresh).addr,
        csp.encodeHIn input ++
          (ensure_capacity buf (csp.sizeHIn input) fresh).data.drop
            (csp.encodeHIn input).length⟩) := by
  have hmod : csp.sizeHIn input % 2 ^ 32 = csp.sizeHIn input :=
    Nat.mod_eq_of_lt hsz
  have hfit : (csp.encodeHIn input).length ≤
      (ensure_capacity buf (csp.sizeHIn input) fresh).data.length := by
    rw [← csp.sizeHIn_eq]
    exact ensure_capacity_req_le _ _ _
  simp only [Host.call, hmod, hfit, if_true, hdec]

/-- C2: an outbound call with a request whose encoded size fits the
32-bit target (`hsz`) first grows the borrowed outbound-input buffer to
at least the request's encoded size, writes the encoding at its start,
invokes the single imported far-side function with the handle and a
packed descriptor over that buffer, unpacks the returned descriptor, and
returns the value decoded from the bytes it addresses (`hdec` names that
decoded value). -/
theorem host_call_ok (csp : PluginSpec) (oracle : HostOracle)
    (fresh info : Nat) (input : csp.HIn) (buf : Buffer) (out : csp.HOut)
    (hsz : csp.sizeHIn input < 2 ^ 32)
    (hdec : csp.decodeHOut (readBytes oracle.mem
      (unpack_buffer_desc (oracle.plugitin_host_call info
        (pack_buffer_desc
          ((ensure_capacity buf (csp.sizeHIn input) fresh).addr % 2 ^ 32)
          (csp.sizeHIn input)))).1
      (unpack_buffer_desc (oracle.plugitin_host_call info
        (pack_buffer_desc
          ((ensure_capacity buf (csp.sizeHIn input) fresh).addr % 2 ^ 32)
          (csp.sizeHIn input)))).2) = some out) :
    Host.call csp oracle fresh info input buf =
      .ok (out, ⟨(ensure_capacity buf (csp.sizeHIn input) fresh).addr,
        csp.encodeHIn input ++
          (ensure_capacity buf (csp.sizeHIn input) fresh).data.drop
            (csp.encodeHIn input).length⟩) ∧
    (csp.encodeHIn input ++
        (ensure_capacity buf (csp.sizeHIn input) fresh).data.drop
          (csp.encodeHIn input).length).take (csp.encodeHIn input).length =
      csp.encodeHIn input ∧
    csp.sizeHIn input ≤
      (csp.encodeHIn input ++
        (ensure_capacity buf (csp.sizeHIn input) fresh).data.drop
          (csp.encodeHIn input).length).length := by
  have hfit : (csp.encodeHIn input).length ≤
      (ensure_capacity buf (csp.sizeHIn input) fresh).data.length := by
    rw [← csp.sizeHIn_eq]
    exact ensure_capacity_req_le _ _ _
  refine ⟨host_call_spec csp oracle fresh info input buf out hsz hdec,
    List.take_left _ _, ?_⟩
  rw [List.length_append, List.length_drop, csp.sizeHIn_eq]
  omega

/-- Witness for C2: the example plugin's outbound `Baz` call against the
host that answers with an encoded `Qux` at addresses 200..203. -/
theorem host_call_ok_witness :
    Host.call CoolPlugin oracleQux 300 12 HostInput.Baz
        coolRec.host_call_input_buffer =
      .ok (HostOutput.Qux,
        ⟨(ensure_capacity coolRec.host_call_input_buffer
            (CoolPlugin.sizeHIn HostInput.Baz) 300).addr,
          CoolPlugin.encodeHIn HostInput.Baz ++
            (ensure_capacity coolRec.host_call_input_buffer
              (CoolPlugin.sizeHIn HostInput.Baz) 300).data.drop
              (CoolPlugin.encodeHIn HostInput.Baz).length⟩) ∧
    (CoolPlugin.encodeHIn HostInput.Baz ++
        (ensure_capacity coolRec.host_call_input_buffer
          (CoolPlugin.sizeHIn HostInput.Baz) 300).data.drop
          (CoolPlugin.encodeHIn HostInput.Baz).length).take
        (CoolPlugin.encodeHIn HostInput.Baz).length =
      CoolPlugin.encodeHIn HostInput.Baz ∧
    CoolPlugin.sizeHIn HostInput.Baz ≤
      (CoolPlugin.encodeHIn HostInput.Baz ++
        (ensure_capacity coolRec.host_call_input_buffer
          (CoolPlugin.sizeHIn HostInput.Baz) 300).data.drop
          (CoolPlugin.encodeHIn HostInput.Baz).length).length :=
  host_call_ok CoolPlugin oracleQux 300 12 HostInput.Baz
    coolRec.host_call_input_buffer HostOutput.Qux (by decide) rfl

theorem host_call_mono (csp : PluginSpec) (oracle : HostOracle)
    (fresh info : Nat) (input : csp.HIn) (buf : Buffer)
    (out : csp.HOut) (buf' : Buffer)
    (h : Host.call csp oracle fresh info input buf = .ok (out, buf')) :
    buf.data.length ≤ buf'.data.length := by
  simp only [Host.call] at h
  split at h
  · next hfit =>
    split at h
    · next heq =>
      simp only [Outcome.ok.injEq, Prod.mk.injEq] at h
      obtain ⟨-, h2⟩ := h
      subst h2
      simp only [List.length_append, List.length_drop]
      have := ensure_capacity_old_le buf (csp.sizeHIn input % 2 ^ 32) fresh
      omega
    · exact absurd h (by simp)
  · exact absurd h (by simp)

theorem runScript_mono (csp : PluginSpec) (oracle : HostOracle)
    (fresh : Nat → Nat) (info : Nat)
    (s : CallScript csp.HIn csp.HOut (csp.COut × csp.State)) :
    ∀ (k : Nat) (buf : Buffer) (r : csp.COut × csp.State) (buf' : Buffer),
      runScript csp oracle fresh info k s buf = .ok (r, buf') →
      buf.data.length ≤ buf'.data.length := by
  induction s with
  | done r0 =>
    intro k buf r buf' h
    simp only [runScript, Outcome.ok.injEq, Prod.mk.injEq] at h
    obtain ⟨-, h2⟩ := h
    subst h2
    exact Nat.le_refl _
  | hostCall inp cont ih =>
    intro k buf r buf' h
    simp only [runScript] at h
    split at h
    · next out buf1 heq =>
      exact Nat.le_trans
        (host_call_mono csp oracle (fresh k) info inp buf out buf1 heq)
        (ih out (k + 1) buf1 r buf' h)
    · exact absurd h (by simp)
    · exact absurd h (by simp)

/-- C5: construct leaves both guest-owned buffers at capacity zero, and
every subsequent operation is non-decreasing on each buffer's capacity:
the growth step yields capacity at least the requirement and at least the
old capacity; a successful outbound call never shrinks the outbound-input
buffer; a successful inbound dispatch never shrinks either buffer of the
instance's record; allocate and deallocate leave the record heap
untouched. -/
theorem buffer_capacity_monotone (csp : PluginSpec) :
    (∀ (fresh : Nat) (heap : Heap csp) (rec0 : PluginInfo csp),
      (plugitin_init_impl csp fresh heap).2 fresh = some rec0 →
      rec0.client_call_output_buffer.data.length = 0 ∧
      rec0.host_call_input_buffer.data.length = 0) ∧
    (∀ (buf : Buffer) (n a : Nat),
      buf.data.length ≤ (ensure_capacity buf n a).data.length ∧
      n ≤ (ensure_capacity buf n a).data.length) ∧
    (∀ (oracle : HostOracle) (fresh info : Nat) (input : csp.HIn)
      (buf : Buffer) (out : csp.HOut) (buf' : Buffer),
      Host.call csp oracle fresh info input buf = .ok (out, buf') →
      buf.data.length ≤ buf'.data.length) ∧
    (∀ (mem : Nat → Nat) (oracle : HostOracle) (fresh : Nat → Nat)
      (freshO : Nat) (heap : Heap csp) (info packed : Nat)
      (rec rec' : PluginInfo csp) (v : Nat) (heap' : Heap csp),
      plugitin_client_call_impl csp mem oracle fresh freshO heap info packed =
        .ok (v, heap') →
      heap info = some rec → heap' info = some rec' →
      rec.client_call_output_buffer.data.length ≤
        rec'.client_call_output_buffer.data.length ∧
      rec.host_call_input_buffer.data.length ≤
        rec'.host_call_input_buffer.data.length) ∧
    (∀ (allocFn : Nat → Nat → Nat) (heap : Heap csp)
      (info size align v : Nat) (heap' : Heap csp),
      plugitin_alloc_impl csp allocFn heap info size align = .ok (v, heap') →
      heap' = heap) ∧
    (∀ (heap : Heap csp) (info ptr size align : Nat) (heap' : Heap csp),
      plugitin_dealloc_impl csp heap info ptr size align = .ok heap' →
      heap' = heap) := by
  refine ⟨?_, ?_, ?_, ?_, ?_, ?_⟩
  · intro fresh heap rec0 h
    simp only [plugitin_init_impl, updateHeap, if_pos, Option.some.injEq] at h
    subst h
    simp
  · intro buf n a
    exact ⟨ensure_capacity_old_le buf n a, ensure_capacity_req_le buf n a⟩
  · intro oracle fresh info input buf out buf' h
    exact host_call_mono csp oracle fresh info input buf out buf' h
  · intro mem oracle fresh freshO heap info packed rec rec' v heap' h hrec hrec'
    have h0 : info ≠ 0 := by
      intro hz
      subst hz
      simp [plugitin_client_call_impl, info_ref] at h
    simp only [plugitin_client_call_impl, info_ref, h0, if_false, hrec] at h
    split at h
    · exact absurd h (by simp)
    · next cin hdec =>
      split at h
      · exact absurd h (by simp)
      · exact absurd h (by simp)
      · next res hbuf heq =>
        split at h
        · next hfit =>
          simp only [Outcome.ok.injEq, Prod.mk.injEq] at h
          obtain ⟨-, h2⟩ := h
          subst h2
          simp only [updateHeap, if_pos, Option.some.injEq] at hrec'
          subst hrec'
          constructor
          · simp only [List.length_append, List.length_drop]
            have := ensure_capacity_old_le rec.client_call_output_buffer
              (csp.sizeCOut res.1 % 2 ^ 32) freshO
            omega
          · exact runScript_mono csp oracle fresh info
              (csp.call rec.plugin cin) 0 rec.host_call_input_buffer res hbuf heq
        · exact absurd h (by simp)
  · intro allocFn heap info size align v heap' h
    simp only [plugitin_alloc_impl] at h
    split at h
    · exact absurd h (by simp)
    · exact absurd h (by simp)
    · split at h
      · simp only [Outcome.ok.injEq, Prod.mk.injEq] at h
        exact h.2.symm
      · exact absurd h (by simp)
  · intro heap info ptr size align heap' h
    simp only [plugitin_dealloc_impl] at h
    split at h
    · exact absurd h (by simp)
    · exact absurd h (by simp)
    · split at h
      · simp only [Outcome.ok.injEq] at h
        exact h.symm
      · exact absurd h (by simp)

/-- Witness for C5: in the end-to-end example-plugin scenario both
buffer capacities grow from 0 to 4 across one inbound dispatch. -/
theorem buffer_capacity_monotone_witness :
    coolRec.client_call_output_buffer.data.length ≤
      (PluginInfo.mk () (Buffer.mk 400 [0, 0, 0, 0]) (Buffer.mk 300 [0, 0, 0, 0]) :
        PluginInfo CoolPlugin).client_call_output_buffer.data.length ∧
    coolRec.host_call_input_buffer.data.length ≤
      (PluginInfo.mk () (Buffer.mk 400 [0, 0, 0, 0]) (Buffer.mk 300 [0, 0, 0, 0]) :
        PluginInfo CoolPlugin).host_call_input_buffer.data.length :=
  (buffer_capacity_monotone CoolPlugin).2.2.2.1 memFoo oracleQux freshHost 400
    coolHeap 12 (pack_buffer_desc 100 4) coolRec
    (PluginInfo.mk () (Buffer.mk 400 [0, 0, 0, 0]) (Buffer.mk 300 [0, 0, 0, 0]))
    (pack_buffer_desc 400 4)
    (updateHeap CoolPlugin coolHeap 12
      (PluginInfo.mk () (Buffer.mk 400 [0, 0, 0, 0]) (Buffer.mk 300 [0, 0, 0, 0])))
    rfl rfl rfl

theorem client_call_oversize (csp : PluginSpec) (mem : Nat → Nat)
    (oracle : HostOracle) (fresh : Nat → Nat) (freshO : Nat)
    (heap : Heap csp) (info packed : Nat) (rec : PluginInfo csp)
    (cin : csp.CIn) (res : csp.COut × csp.State) (hbuf : Buffer)
    (h0 : info ≠ 0) (hrec : heap info = some rec)
    (hdec : csp.decodeCIn (readBytes mem (unpack_buffer_desc packed).1
      (unpack_buffer_desc packed).2) = some cin)
    (hrun : runScript csp oracle fresh info 0 (csp.call rec.plugin cin)
      rec.host_call_input_buffer = .ok (res, hbuf))
    (hsz : 2 ^ 32 ≤ csp.sizeCOut res.1)
    (hcap : rec.client_call_output_buffer.data.length < 2 ^ 32) :
    plugitin_client_call_impl csp mem oracle fresh freshO heap info packed =
      .trap := by
  have hlt : (ensure_capacity rec.client_call_output_buffer
      (csp.sizeCOut res.1 % 2 ^ 32) freshO).data.length < 2 ^ 32 := by
    unfold ensure_capacity
    split
    · simp only [List.length_replicate]
      exact Nat.mod_lt _ (by omega)
    · exact hcap
  have hnofit : ¬ ((csp.encodeCOut res.1).length ≤
      (ensure_capacity rec.client_call_output_buffer
        (csp.sizeCOut res.1 % 2 ^ 32) freshO).data.length) := by
    rw [← csp.sizeCOut_eq]
    omega
  simp only [plugitin_client_call_impl, info_ref, h0, if_false, hrec, hdec,
    hrun, hnofit, if_false]

theorem host_call_oversize (csp : PluginSpec) (oracle : HostOracle)
    (fresh info : Nat) (input : csp.HIn) (buf : Buffer)
    (hsz : 2 ^ 32 ≤ csp.sizeHIn input) (hcap : buf.data.length < 2 ^ 32) :
    Host.call csp oracle fresh info input buf = .trap := by
  have hlt : (ensure_capacity buf (csp.sizeHIn input % 2 ^ 32)
      fresh).data.length < 2 ^ 32 := by
    unfold ensure_capacity
    split
    · simp only [List.length_replicate]
      exact Nat.mod_lt _ (by omega)
    · exact hcap
  have hnofit : ¬ ((csp.encodeHIn input).length ≤
      (ensure_capacity buf (csp.sizeHIn input % 2 ^ 32)
        fresh).data.length) := by
    rw [← csp.sizeHIn_eq]
    omega
  simp only [Host.call, hnofit, if_false]

/-- C10 counterexample: a response whose computed serialized size is
`2 ^ 32` (exceeding `2 ^ 32 - 1`) never produces a descriptor at all: on
the 32-bit target the `as usize` cast truncates the growth requirement to
`0`, serialization into the under-grown buffer fails, and the call traps
instead of transmitting a truncated length field. -/
theorem oversize_payload_no_descriptor :
    2 ^ 32 - 1 < BigPlugin.sizeCOut () ∧
    plugitin_client_call_impl BigPlugin (fun _ => 0) oracleNone (fun _ => 0) 7
      bigHeap 3 0 = .trap := by
  constructor
  · show 2 ^ 32 - 1 < 2 ^ 32
    omega
  · exact client_call_oversize BigPlugin (fun _ => 0) oracleNone (fun _ => 0) 7
      bigHeap 3 0
      (PluginInfo.mk () ⟨1, List.replicate 0 0⟩ ⟨1, List.replicate 0 0⟩)
      () ((), ()) ⟨1, List.replicate 0 0⟩ (by decide) rfl rfl rfl
      (Nat.le_refl _) (by decide)

/-- C10 amended: the encoded length is indeed cast to `u32` before
packing, but on the 32-bit target a payload whose serialized size exceeds
`2 ^ 32 - 1` makes both `client_call` and `Host::call` trap during the
encode step (the `as usize` growth requirement is likewise truncated
modulo `2 ^ 32`, so the buffer stays smaller than the encoding), and no
descriptor carrying a reduced length is ever transmitted. -/
theorem oversize_payload_traps (csp : PluginSpec) :
    (∀ (mem : Nat → Nat) (oracle : HostOracle) (fresh : Nat → Nat)
      (freshO : Nat) (heap : Heap csp) (info packed : Nat)
      (rec : PluginInfo csp) (cin : csp.CIn) (res : csp.COut × csp.State)
      (hbuf : Buffer),
      info ≠ 0 → heap info = some rec →
      csp.decodeCIn (readBytes mem (unpack_buffer_desc packed).1
        (unpack_buffer_desc packed).2) = some cin →
      runScript csp oracle fresh info 0 (csp.call rec.plugin cin)
        rec.host_call_input_buffer = .ok (res, hbuf) →
      2 ^ 32 ≤ csp.sizeCOut res.1 →
      rec.client_call_output_buffer.data.length < 2 ^ 32 →
      plugitin_client_call_impl csp mem oracle fresh freshO heap info packed =
        .trap) ∧
    (∀ (oracle : HostOracle) (fresh info : Nat) (input : csp.HIn)
      (buf : Buffer),
      2 ^ 32 ≤ csp.sizeHIn input → buf.data.length < 2 ^ 32 →
      Host.call csp oracle fresh info input buf = .trap) := by
  constructor
  · intro mem oracle fresh freshO heap info packed rec cin res hbuf h0 hrec
      hdec hrun hsz hcap
    exact client_call_oversize csp mem oracle fresh freshO heap info packed
      rec cin res hbuf h0 hrec hdec hrun hsz hcap
  · intro oracle fresh info input buf hsz hcap
    exact host_call_oversize csp oracle fresh info input buf hsz hcap

/-- Witness for the amended C10: the big-payload plugin traps on a live
handle. -/
theorem oversize_payload_traps_witness :
    plugitin_client_call_impl BigPlugin (fun _ => 0) oracleNone (fun _ => 0) 8
      bigHeap 3 42 = .trap :=
  (oversize_payload_traps BigPlugin).1 (fun _ => 0) oracleNone (fun _ => 0) 8
    bigHeap 3 42
    (PluginInfo.mk () ⟨1, List.replicate 0 0⟩ ⟨1, List.replicate 0 0⟩)
    () ((), ()) ⟨1, List.replicate 0 0⟩ (by decide) rfl rfl rfl
    (Nat.le_refl _) (by decide)

end Plugitin
